import Mathlib

/-!
Verification development for the coderag-extension repository.

Shallow embedding of the two core components:

* `PersistentKernel` (src/codeact_retrieval/utils/persistent_kernel.py):
  a stateful code-execution kernel with a persistent namespace, a
  synchronous `execute` with timeout, a fire-and-forget
  `execute_background`, and a `reset`.

* `Agent` (src/codeact_retrieval/agent.py): the tool-calling
  orchestration loop: system-prompt insertion, the query loop against a
  completion service, and tool-call dispatch.

Submitted Python code is modelled by an abstract `PyCode` record giving
the outcome of `ast.parse`, the semantics of `exec` on a namespace, the
wall-clock duration of the execution, and the partial output / partial
namespace observable at a given instant (used on the timeout path, where
the worker thread keeps running).  The completion service is modelled as
a finite script of assistant responses consumed by the query loop.
-/

/-! ## Kernel data model -/

/-- A kernel namespace: Python `dict` mapping identifiers to values,
modelled as an association list (values specialised to `Int`, which is
enough for every concrete program the development evaluates). -/
abbrev NS := List (String × Int)

/-- Python `dict` assignment `ns[x] = v`: overwrite in place if the key
exists, otherwise append. -/
def nsSet (ns : NS) (x : String) (v : Int) : NS :=
  if ns.any (fun p => p.1 == x) then
    ns.map (fun p => if p.1 == x then (x, v) else p)
  else
    ns ++ [(x, v)]

/-- Python `dict` lookup `ns.get(x)`. -/
def nsGet (ns : NS) (x : String) : Option Int :=
  List.lookup x ns

/-- Outcome of `exec(code, namespace)` when the execution terminates:
either it completes normally or raises a runtime fault; in both cases
the (possibly partially) mutated namespace and the text printed so far
are recorded. -/
inductive RunOutcome where
  | normal (ns : NS) (out : String)
  | raises (ns : NS) (out : String) (msg : String)

/-- An abstract submitted Python program.  `parse` is the result of
`ast.parse`; `run` is the semantics of `exec` on a namespace (only
meaningful when `parse` succeeds); `time` is the wall-clock duration of
the `exec` call (`none` for a non-terminating program); `emitted t` is
the text the program has printed by instant `t`; `midNs ns t` is the
namespace state at instant `t` when started from `ns` (observed when a
timeout fires while the worker thread is still running). -/
structure PyCode where
  parse : Except String Unit
  run : NS → RunOutcome
  time : Option Nat
  emitted : Nat → String
  midNs : NS → Nat → NS

/-- Result of `PersistentKernel._safe_exec`: parse first, raising
`SyntaxError("Invalid Python syntax: ...")` on a parse failure (the
namespace is untouched and nothing is printed), otherwise `exec`. -/
inductive SafeExecRes where
  | ok (ns : NS) (out : String)
  | syntaxErr (msg : String)
  | runtimeErr (ns : NS) (out : String) (msg : String)

/-- `PersistentKernel._safe_exec(code)` (persistent_kernel.py lines
94-101), returning the effect on the namespace and output rather than
performing it. -/
def safe_exec (ns : NS) (c : PyCode) : SafeExecRes :=
  match c.parse with
  | .error e => .syntaxErr ("Invalid Python syntax: " ++ e)
  | .ok _ =>
    match c.run ns with
    | .normal ns' out => .ok ns' out
    | .raises ns' out m => .runtimeErr ns' out m

/-- The per-call result dict `{success, output, error}`. -/
structure ExecResult where
  success : Bool
  output : String
  error : Option String
deriving DecidableEq, Repr

/-- The kernel object: persistent namespace, optional bootstrap imports
(`none` models the empty import string, which `if self.imports:` skips),
timeout in seconds, and the tracked background threads. -/
structure PersistentKernel where
  nspace : NS
  imports : Option PyCode
  timeout : Nat
  background_threads : List PyCode

/-- A binding of `sys.stdout`: either the real process stream or a
capture buffer. -/
inductive OutStream where
  | real
  | buffer (id : Nat)
deriving DecidableEq, Repr

/-- Everything observable from one `execute` call: the kernel state at
return, the returned result dict, the value of `sys.stdout` after the
call (the `finally` block restores `old_stdout`), and the tracebacks the
worker thread's default excepthook printed to the process stderr. -/
structure ExecCall where
  kernel : PersistentKernel
  result : ExecResult
  sysOut : OutStream
  threadStderr : List String

/-- Input to `execute`: the `isinstance(code, str)` guard distinguishes
a non-string argument from an actual program. -/
inductive ExecInput where
  | nonStr
  | ofCode (c : PyCode)

/-- Whether the worker thread running `_safe_exec code` has finished
within `t` seconds (i.e. `not is_alive()` after `join(timeout=t)`).  A
parse failure raises immediately, so that thread always finishes. -/
def finishesWithin (c : PyCode) (t : Nat) : Bool :=
  match c.parse with
  | .error _ => true
  | .ok _ =>
    match c.time with
    | none => false
    | some d => d ≤ t

/-- `str(TimeoutError(f"Execution timed out after {timeout} seconds"))`,
the string stored in the result's `error` field on the timeout path. -/
def timeoutErrorMsg (t : Nat) : String :=
  "Execution timed out after " ++ toString t ++ " seconds"

/-- `PersistentKernel.execute(code)` (persistent_kernel.py lines
60-92).  Faithful control flow: the non-string guard returns before any
redirection; otherwise `sys.stdout` is redirected to a capture buffer,
`_safe_exec` runs in a worker thread, and `join(timeout)` is awaited.

* If the thread is still alive, a `TimeoutError` is raised in the main
  thread, caught by `except Exception`, and converted to a failure
  result carrying the output captured so far; the worker thread keeps
  running, so the namespace at return is `midNs` at the timeout instant.
* If the thread finished, `execute` returns `success=True` with the
  captured output — even when `_safe_exec` raised inside the thread: an
  exception in a `threading.Thread` target never propagates to `join`,
  it is printed to stderr by the thread excepthook, so the
  `except Exception` block in `execute` never sees it.

The `finally` block restores `sys.stdout` on every path. -/
def PersistentKernel.execute (k : PersistentKernel) (sysOut : OutStream)
    (inp : ExecInput) : ExecCall :=
  match inp with
  | .nonStr => ⟨k, ⟨false, "", some "Code must be a string"⟩, sysOut, []⟩
  | .ofCode c =>
    let old_stdout := sysOut
    if finishesWithin c k.timeout then
      match safe_exec k.nspace c with
      | .ok ns' out => ⟨{ k with nspace := ns' }, ⟨true, out, none⟩, old_stdout, []⟩
      | .syntaxErr m => ⟨k, ⟨true, "", none⟩, old_stdout, [m]⟩
      | .runtimeErr ns' out m =>
          ⟨{ k with nspace := ns' }, ⟨true, out, none⟩, old_stdout, [m]⟩
    else
      ⟨{ k with nspace := c.midNs k.nspace k.timeout },
       ⟨false, c.emitted k.timeout, some (timeoutErrorMsg k.timeout)⟩,
       old_stdout, []⟩

/-- Whether a background thread started `t` seconds ago is still alive:
a parse failure dies immediately (`run_code` catches and prints it), a
non-terminating program is always alive, a terminating one is alive
while `t < duration`. -/
def threadAliveAt (c : PyCode) (t : Nat) : Bool :=
  match c.parse with
  | .error _ => false
  | .ok _ =>
    match c.time with
    | none => true
    | some d => t < d

/-- `PersistentKernel.execute_background(code)` (persistent_kernel.py
lines 38-58): start a daemon thread, sleep 2 seconds, prune finished
threads, and return the fixed acknowledgment unconditionally.  The
thread's concurrent namespace mutations and its printed faults go to the
process's own streams and are not part of the returned result. -/
def PersistentKernel.execute_background (k : PersistentKernel) (c : PyCode) :
    PersistentKernel × ExecResult :=
  let threads := k.background_threads ++ [c]
  let threads := threads.filter (fun t => threadAliveAt t 2)
  ({ k with background_threads := threads },
   ⟨true, "Code started in background thread", none⟩)

/-- `PersistentKernel.reset()` (persistent_kernel.py lines 32-36):
clear the namespace, then re-run the bootstrap imports if configured.
`_safe_exec` has no catch here, so a fault in the imports propagates out
of `reset` (modelled by the `error` constructor, which still records the
namespace state in which the fault left the kernel). -/
def PersistentKernel.reset (k : PersistentKernel) :
    Except (PersistentKernel × String) PersistentKernel :=
  match k.imports with
  | none => .ok { k with nspace := [] }
  | some imp =>
    match safe_exec [] imp with
    | .ok ns' _ => .ok { k with nspace := ns' }
    | .syntaxErr m => .error ({ k with nspace := [] }, m)
    | .runtimeErr ns' _ m => .error ({ k with nspace := ns' }, m)

/-- `PersistentKernel.__init__` (persistent_kernel.py lines 16-30): the
bootstrap imports run once at construction; a fault there propagates as
a construction error. -/
def initKernel (ns : NS) (imports : Option PyCode) (timeout : Nat) :
    Except String PersistentKernel :=
  match imports with
  | none => .ok ⟨ns, none, timeout, []⟩
  | some imp =>
    match safe_exec ns imp with
    | .ok ns' _ => .ok ⟨ns', some imp, timeout, []⟩
    | .syntaxErr m => .error m
    | .runtimeErr _ _ m => .error m

/-! ## Concrete programs used to evaluate the kernel -/

/-- The program `x = 2`: parses, binds `x` to `2`, prints nothing,
finishes immediately. -/
def pyAssignX2 : PyCode where
  parse := .ok ()
  run := fun ns => .normal (nsSet ns "x" 2) ""
  time := some 0
  emitted := fun _ => ""
  midNs := fun ns _ => ns

/-- The program `print(x)`: prints the value bound to `x`, or raises
`NameError: name 'x' is not defined` when `x` is unbound. -/
def pyPrintX : PyCode where
  parse := .ok ()
  run := fun ns =>
    match nsGet ns "x" with
    | some v => .normal ns (toString v ++ "\n")
    | none => .raises ns "" "name 'x' is not defined"
  time := some 0
  emitted := fun _ => ""
  midNs := fun ns _ => ns

/-- The bootstrap program `import math`: binds the name `math`. -/
def pyImportMath : PyCode where
  parse := .ok ()
  run := fun ns => .normal (nsSet ns "math" 0) ""
  time := some 0
  emitted := fun _ => ""
  midNs := fun ns _ => ns

/-- The program `while True: pass`: parses, never terminates, prints
nothing. -/
def pyLoopForever : PyCode where
  parse := .ok ()
  run := fun ns => .normal ns ""
  time := none
  emitted := fun _ => ""
  midNs := fun ns _ => ns

/-- The program `1/0`: parses, raises `ZeroDivisionError: division by
zero` immediately. -/
def pyDivZero : PyCode where
  parse := .ok ()
  run := fun ns => .raises ns "" "division by zero"
  time := some 0
  emitted := fun _ => ""
  midNs := fun ns _ => ns

/-- The program `def f(:`: `ast.parse` fails. -/
def pyUnparsable : PyCode where
  parse := .error "invalid syntax (<unknown>, line 1)"
  run := fun ns => .normal ns ""
  time := some 0
  emitted := fun _ => ""
  midNs := fun ns _ => ns

/-- A fresh kernel with no imports and the default 30-second timeout. -/
def kernelT30 : PersistentKernel := ⟨[], none, 30, []⟩

/-- A fresh kernel with a 1-second timeout. -/
def kernelT1 : PersistentKernel := ⟨[], none, 1, []⟩

/-- The kernel of the persistence scenario: constructed with
`imports="import math"`, so its post-import baseline namespace is
`[("math", 0)]`. -/
def kernelC7 : PersistentKernel := ⟨[("math", 0)], some pyImportMath, 30, []⟩

/-- State of `kernelC7` after `execute("x = 2")`. -/
def k7a : PersistentKernel :=
  (kernelC7.execute OutStream.real (.ofCode pyAssignX2)).kernel

/-- The call `execute("print(x)")` on `k7a`. -/
def r7b : ExecCall := k7a.execute OutStream.real (.ofCode pyPrintX)

/-- The kernel restored by `reset()`: namespace back to the post-import
baseline. -/
def k7c : PersistentKernel := ⟨[("math", 0)], some pyImportMath, 30, []⟩

/-! ## Agent data model -/

/-- A Python value carried in a tool-call argument dict; `kernelRef`
models the live `PersistentKernel` handle the dispatcher injects. -/
inductive PyVal where
  | str (s : String)
  | int (n : Int)
  | kernelRef
deriving DecidableEq, Repr

/-- A parsed argument dict. -/
abbrev ToolArgs := List (String × PyVal)

/-- Python `dict` assignment `args[key] = v`. -/
def setArg (args : ToolArgs) (key : String) (v : PyVal) : ToolArgs :=
  if args.any (fun p => p.1 == key) then
    args.map (fun p => if p.1 == key then (key, v) else p)
  else
    args ++ [(key, v)]

/-- The raw `tool_call.function.arguments` string, represented by the
outcome of `json.loads` on it: either a `JSONDecodeError` with its
detail or the parsed dict. -/
inductive Payload where
  | malformed (detail : String)
  | wellFormed (args : ToolArgs)
deriving DecidableEq, Repr

/-- A tool request from the completion service: unique id, tool name,
raw argument payload. -/
structure ToolCall where
  id : String
  name : String
  arguments : Payload
deriving DecidableEq, Repr

/-- The class of a fault raised by a tool callable.  The first four are
exactly the classes named in the dispatcher's
`except (TypeError, ValueError, AttributeError, RuntimeError)` clause
(each covering its Python subclasses); `other` is any fault outside that
clause. -/
inductive FaultKind where
  | typeError
  | valueError
  | attributeError
  | runtimeError
  | other
deriving DecidableEq, Repr

/-- Whether the dispatcher's narrow `except` clause catches a fault of
this kind. -/
def caughtKind : FaultKind → Bool
  | .other => false
  | _ => true

/-- Outcome of invoking a tool callable: the string form of its return
value (only the `str()` of the result ever enters the history), or a
fault of some kind with its detail message. -/
inductive ToolOutcome where
  | ok (s : String)
  | fault (k : FaultKind) (msg : String)
deriving DecidableEq, Repr

/-- A registered tool callable. -/
abbrev ToolFn := ToolArgs → ToolOutcome

/-- `self._tool_functions`: the registry mapping tool names to
callables, built once at construction. -/
abbrev ToolRegistry := List (String × ToolFn)

/-- The dict returned by `Agent._execute_tool_call` (its `tool_args`
field is omitted: only `tool_call_id`, `tool_name` and the string form
of `tool_response` flow into the appended tool message). -/
structure ToolCallResult where
  tool_call_id : String
  tool_name : String
  tool_response : String
deriving DecidableEq, Repr

/-- The argument dict actually passed to the callable: for the
`code_execution` tool the dispatcher injects the live kernel handle
under the key `kernel` before invocation. -/
def resolvedArgs (kern : PyVal) (name : String) (args : ToolArgs) : ToolArgs :=
  if name == "code_execution" then setArg args "kernel" kern else args

/-- `Agent._execute_tool_call(tool_call)` (agent.py lines 152-189).
`json.loads` failure returns the parse-error result; an unregistered
name returns the not-found result; a callable fault in the narrow
`except` clause is converted to an error string; any other fault
propagates out of the dispatcher (the `Except.error` case, carrying the
fault's detail). -/
def Agent.execute_tool_call (reg : ToolRegistry) (kern : PyVal)
    (tc : ToolCall) : Except String ToolCallResult :=
  match tc.arguments with
  | .malformed e =>
    .ok ⟨tc.id, tc.name, "Error parsing tool arguments: " ++ e⟩
  | .wellFormed args =>
    match List.lookup tc.name reg with
    | none => .ok ⟨tc.id, tc.name, "Error: Tool '" ++ tc.name ++ "' not found"⟩
    | some f =>
      match f (resolvedArgs kern tc.name args) with
      | .ok s => .ok ⟨tc.id, tc.name, s⟩
      | .fault kind m =>
        if caughtKind kind then
          .ok ⟨tc.id, tc.name, "Error executing tool '" ++ tc.name ++ "': " ++ m⟩
        else
          .error m

/-- Message roles. -/
inductive Role where
  | system
  | user
  | assistant
  | tool
deriving DecidableEq, Repr

/-- A conversation message.  Assistant messages carry the tool requests
of their turn; tool messages carry the back-reference `tool_call_id` and
the answering tool's name. -/
structure Message where
  role : Role
  content : Option String := none
  tool_call_id : Option String := none
  name : Option String := none
  tool_calls : List ToolCall := []
deriving DecidableEq, Repr

/-- The system message `{"role": "system", "content": system_prompt}`. -/
def systemMsg (sp : String) : Message := ⟨Role.system, some sp, none, none, []⟩

/-- The user message appended by `query`. -/
def userMsg (p : String) : Message := ⟨Role.user, some p, none, none, []⟩

/-- The tool message appended by `_process_tool_calls` for one
dispatched request. -/
def toolMsg (r : ToolCallResult) : Message :=
  ⟨Role.tool, some r.tool_response, some r.tool_call_id, some r.tool_name, []⟩

/-- One assistant response from the completion service: content and an
ordered list of tool requests (empty models `tool_calls = None`). -/
structure AsstResponse where
  content : Option String
  tool_calls : List ToolCall
deriving DecidableEq, Repr

/-- The assistant message appended verbatim
(`response.choices[0].message.model_dump()`). -/
def asstMsg (r : AsstResponse) : Message :=
  ⟨Role.assistant, r.content, none, none, r.tool_calls⟩

/-- `Agent._process_tool_calls(tool_calls)` (agent.py lines 82-121):
dispatch each request in order, appending one tool message per request.
When `_execute_tool_call` lets a fault propagate, the loop aborts and
the fault escapes; the `error` case carries the message list accumulated
so far (the Python `self.messages`, which the exception leaves intact)
together with the fault's detail. -/
def Agent.process_tool_calls (reg : ToolRegistry) (kern : PyVal)
    (msgs : List Message) :
    List ToolCall → Except (List Message × String) (List Message)
  | [] => .ok msgs
  | tc :: rest =>
    match Agent.execute_tool_call reg kern tc with
    | .error m => .error (msgs, m)
    | .ok r => Agent.process_tool_calls reg kern (msgs ++ [toolMsg r]) rest

/-- The final value returned by `query`:
`{"content": content or "", "tool_calls": tool_calls or None}`. -/
structure QueryResult where
  content : String
  tool_calls : Option (List ToolCall)
deriving DecidableEq, Repr

/-- The `while True` loop of `Agent.query` (agent.py lines 65-79),
with the completion service modelled as a finite script of assistant
responses.  Each iteration appends the assistant message; if it carries
tool requests they are all dispatched and the loop continues, otherwise
the final result is returned.  An exhausted script stops the loop with
no final result (the real loop would issue another completion request).
A propagating tool fault aborts the query, leaving the history
accumulated so far. -/
def Agent.queryLoop (reg : ToolRegistry) (kern : PyVal) (msgs : List Message) :
    List AsstResponse →
    Except (List Message × String) (List Message × Option QueryResult)
  | [] => .ok (msgs, none)
  | r :: rest =>
    let msgs1 := msgs ++ [asstMsg r]
    if r.tool_calls.isEmpty then
      .ok (msgs1, some ⟨r.content.getD "", none⟩)
    else
      match Agent.process_tool_calls reg kern msgs1 r.tool_calls with
      | .error em => .error em
      | .ok msgs2 => Agent.queryLoop reg kern msgs2 rest

/-- `Agent._set_system_prompt(system_prompt)` (agent.py lines 192-199):
append the system message to an empty history, insert it at the head
when the first message is not a system message, otherwise do nothing. -/
def Agent.set_system_prompt (sp : String) (msgs : List Message) :
    List Message :=
  match msgs with
  | [] => [systemMsg sp]
  | m :: rest => if m.role == Role.system then m :: rest else systemMsg sp :: m :: rest

/-- `Agent.query(user_prompt)` (agent.py lines 56-79): ensure the
system prompt, append the user message, then run the completion/dispatch
loop against the given script. -/
def Agent.query (reg : ToolRegistry) (kern : PyVal) (sp : String)
    (msgs : List Message) (prompt : String) (script : List AsstResponse) :
    Except (List Message × String) (List Message × Option QueryResult) :=
  Agent.queryLoop reg kern (Agent.set_system_prompt sp msgs ++ [userMsg prompt]) script

/-- A whole session: `query` called once per element of `qs` against the
same mutable history.  A query aborted by a propagating fault still
leaves its partial history in place for the next call, exactly as the
Python `self.messages` does. -/
def Agent.queries (reg : ToolRegistry) (kern : PyVal) (sp : String) :
    List Message → List (String × List AsstResponse) → List Message
  | msgs, [] => msgs
  | msgs, (p, s) :: rest =>
    match Agent.query reg kern sp msgs p s with
    | .ok (msgs', _) => Agent.queries reg kern sp msgs' rest
    | .error (msgs', _) => Agent.queries reg kern sp msgs' rest

/-- Number of system-role messages in a history. -/
def systemCount (msgs : List Message) : Nat :=
  msgs.countP (fun m => m.role == Role.system)

/-- Whether the history is non-empty and starts with a system message. -/
def headIsSystem : List Message → Bool
  | [] => false
  | m :: _ => m.role == Role.system

/-- Whether a list of messages contains no system-role message. -/
def noSys (msgs : List Message) : Bool :=
  msgs.all (fun m => !(m.role == Role.system))

/-- Whether `execute_tool_call` handles this request on a recoverable
path (success, parse error, unknown tool, or caught fault) rather than
letting a fault propagate. -/
def dispatchRecoverable (reg : ToolRegistry) (kern : PyVal) (tc : ToolCall) :
    Bool :=
  match Agent.execute_tool_call reg kern tc with
  | .ok _ => true
  | .error _ => false

/-- The message list held in `self.messages` after a `query` call,
whether the call returned normally or let a tool fault propagate. -/
def queryMsgs
    (x : Except (List Message × String) (List Message × Option QueryResult)) :
    List Message :=
  match x with
  | .ok (m, _) => m
  | .error (m, _) => m

/-- The conversation invariant: the history starts with a system
message and contains no other system message. -/
def headSystemOnly (msgs : List Message) : Bool :=
  headIsSystem msgs && noSys (msgs.drop 1)

/-- A tool callable that succeeds with a fixed string. -/
def fEcho : ToolFn := fun _ => .ok "echo result"

/-- A tool callable that raises a fault outside the dispatcher's
narrow `except` clause (e.g. a `KeyError`). -/
def fBoom : ToolFn := fun _ => .fault .other "missing key"

/-- A tool callable that raises a `TypeError`, inside the narrow
`except` clause. -/
def fFrail : ToolFn := fun _ => .fault .typeError "bad operand"

/-- A concrete registry used to evaluate the dispatcher. -/
def regW : ToolRegistry := [("echo", fEcho), ("boom", fBoom), ("frail", fFrail)]

/-- A request for the registered tool `echo` with a wellformed payload. -/
def tcEcho : ToolCall := ⟨"id1", "echo", .wellFormed []⟩

/-- A request for an unregistered tool with a wellformed payload. -/
def tcNope : ToolCall := ⟨"id2", "nope", .wellFormed []⟩

/-- A request whose argument payload fails to parse. -/
def tcMalformed : ToolCall :=
  ⟨"id3", "echo", .malformed "Expecting value: line 1 column 1 (char 0)"⟩

/-- A request whose callable raises an uncaught fault. -/
def tcBoom : ToolCall := ⟨"id4", "boom", .wellFormed []⟩

/-- A request whose callable raises a caught `TypeError`. -/
def tcFrail : ToolCall := ⟨"id5", "frail", .wellFormed []⟩

/-! ## Theorems: the execution kernel -/

/-- C1 (evidence of the code bug): run against a fresh kernel, the
faulting program `1/0` and the unparsable program `def f(:` both make
`execute` return `{success: True, output: "", error: None}` — the
exception is raised inside the worker thread, printed to the process
stderr by the thread excepthook, and never reaches the
`except Exception` block — contradicting the specified
`{success: false, error: <fault description>}` result. -/
theorem execute_swallows_code_faults :
    (kernelT30.execute OutStream.real (.ofCode pyDivZero)).result =
      ⟨true, "", none⟩ ∧
    (kernelT30.execute OutStream.real (.ofCode pyDivZero)).threadStderr =
      ["division by zero"] ∧
    (kernelT30.execute OutStream.real (.ofCode pyUnparsable)).result =
      ⟨true, "", none⟩ ∧
    (kernelT30.execute OutStream.real (.ofCode pyUnparsable)).threadStderr =
      ["Invalid Python syntax: invalid syntax (<unknown>, line 1)"] :=
  ⟨rfl, rfl, rfl, rfl⟩

/-- C2: for every program whose worker thread has not finished when
`join(timeout)` elapses, `execute` returns (it never blocks past the
join) a result with `success = False`, the `TimeoutError` message in
`error`, and the output captured up to the timeout instant. -/
theorem execute_timeout (k : PersistentKernel) (s : OutStream) (c : PyCode)
    (h : finishesWithin c k.timeout = false) :
    (k.execute s (.ofCode c)).result =
      ⟨false, c.emitted k.timeout, some (timeoutErrorMsg k.timeout)⟩ := by
  simp [PersistentKernel.execute, h]

/-- C2 witness: an infinite loop against a kernel with `timeout = 1`
yields `success = False` and the `TimeoutError` message. -/
theorem execute_timeout_witness :
    (kernelT1.execute OutStream.real (.ofCode pyLoopForever)).result =
      ⟨false, "", some "Execution timed out after 1 seconds"⟩ :=
  execute_timeout kernelT1 OutStream.real pyLoopForever rfl

/-- C7: the namespace persists across calls and is only reset
explicitly: after `execute("x = 2")`, `execute("print(x)")` prints
`2`; `reset()` then restores the post-import baseline (`import math`
re-applied, `x` gone), so running `print(x)` afterwards raises
`NameError: name 'x' is not defined` (surfacing on the worker thread's
stderr). -/
theorem kernel_persistence_and_reset :
    r7b.result.output = "2\n" ∧
    ('2' ∈ r7b.result.output.toList) ∧
    r7b.kernel.reset = .ok k7c ∧
    k7c.nspace = [("math", 0)] ∧
    safe_exec k7c.nspace pyPrintX =
      .runtimeErr [("math", 0)] "" "name 'x' is not defined" ∧
    (k7c.execute OutStream.real (.ofCode pyPrintX)).threadStderr =
      ["name 'x' is not defined"] :=
  ⟨rfl, by decide, rfl, rfl, rfl, rfl⟩

/-- C8: `execute_background` returns `success = True` with the fixed
acknowledgment and a `None` error for every submitted program,
regardless of its behaviour (the program only lives in the spawned
thread; nothing of its outcome flows into the returned result). -/
theorem execute_background_ack (k : PersistentKernel) (c : PyCode) :
    (k.execute_background c).2 =
      ⟨true, "Code started in background thread", none⟩ :=
  rfl

/-- C9: a non-string argument makes `execute` return the fixed failure
result before redirecting anything or touching the kernel: the kernel
state, the `sys.stdout` binding are returned unchanged and no worker
thread ever runs. -/
theorem execute_non_string (k : PersistentKernel) (s : OutStream) :
    k.execute s .nonStr =
      ⟨k, ⟨false, "", some "Code must be a string"⟩, s, []⟩ :=
  rfl

/-- C10: on every return path of `execute` — non-string guard, success,
swallowed fault, or timeout — the `finally` block leaves the caller's
`sys.stdout` binding exactly as it was before the call. -/
theorem execute_restores_stdout (k : PersistentKernel) (s : OutStream)
    (inp : ExecInput) : (k.execute s inp).sysOut = s := by
  cases inp with
  | nonStr => rfl
  | ofCode c =>
    unfold PersistentKernel.execute
    by_cases h : finishesWithin c k.timeout = true
    · simp only [h, if_true]
      cases safe_exec k.nspace c <;> rfl
    · simp only [Bool.not_eq_true] at h
      simp only [h, Bool.false_eq_true, if_false]

/-! ## Helper lemmas for the dispatcher and the query loop -/

/-- Every result the dispatcher returns on a recoverable path carries
the originating request's id and tool name. -/
theorem execute_tool_call_ok_fields (reg : ToolRegistry) (kern : PyVal)
    (tc : ToolCall) (r : ToolCallResult)
    (h : Agent.execute_tool_call reg kern tc = .ok r) :
    r.tool_call_id = tc.id ∧ r.tool_name = tc.name := by
  unfold Agent.execute_tool_call at h
  repeat' split at h
  all_goals first
    | (injection h with h; subst h; exact ⟨rfl, rfl⟩)
    | (exact absurd h (by simp))

/-- A list of tool-role messages contains no system message. -/
theorem noSys_of_tools {suf : List Message}
    (h : ∀ m ∈ suf, m.role = Role.tool) : noSys suf = true := by
  simp only [noSys, List.all_eq_true]
  intro m hm
  simp [h m hm]

/-- `noSys` distributes over append. -/
theorem noSys_append (a b : List Message) :
    noSys (a ++ b) = (noSys a && noSys b) := by
  simp [noSys, List.all_append]

/-- `_process_tool_calls` only appends messages, all of role tool, on
both its normal and its fault-propagating exit. -/
theorem process_tool_calls_shape (reg : ToolRegistry) (kern : PyVal) :
    ∀ (tcs : List ToolCall) (msgs : List Message),
      (∃ suf, Agent.process_tool_calls reg kern msgs tcs = .ok (msgs ++ suf) ∧
         ∀ m ∈ suf, m.role = Role.tool) ∨
      (∃ suf fm,
         Agent.process_tool_calls reg kern msgs tcs = .error (msgs ++ suf, fm) ∧
         ∀ m ∈ suf, m.role = Role.tool) := by
  intro tcs
  induction tcs with
  | nil =>
    intro msgs
    exact Or.inl ⟨[], by simp [Agent.process_tool_calls], by simp⟩
  | cons tc rest ih =>
    intro msgs
    cases h : Agent.execute_tool_call reg kern tc with
    | error m =>
      exact Or.inr ⟨[], m, by simp [Agent.process_tool_calls, h], by simp⟩
    | ok r =>
      rcases ih (msgs ++ [toolMsg r]) with ⟨suf, hp, hr⟩ | ⟨suf, fm, hp, hr⟩
      · refine Or.inl ⟨toolMsg r :: suf, ?_, ?_⟩
        · simpa [Agent.process_tool_calls, h, List.append_assoc] using hp
        · intro m hm
          rcases List.mem_cons.mp hm with hm | hm
          · subst hm; rfl
          · exact hr m hm
      · refine Or.inr ⟨toolMsg r :: suf, fm, ?_, ?_⟩
        · simpa [Agent.process_tool_calls, h, List.append_assoc] using hp
        · intro m hm
          rcases List.mem_cons.mp hm with hm | hm
          · subst hm; rfl
          · exact hr m hm

/-- When a recoverable prefix is followed by a request whose dispatch
lets a fault propagate, `_process_tool_calls` aborts there: one tool
message per already-dispatched request is in place and the fault
escapes. -/
theorem process_tool_calls_abort (reg : ToolRegistry) (kern : PyVal) :
    ∀ (pre : List ToolCall) (msgs : List Message) (tc : ToolCall)
      (post : List ToolCall) (fm : String),
      (∀ tc' ∈ pre, dispatchRecoverable reg kern tc' = true) →
      Agent.execute_tool_call reg kern tc = .error fm →
      ∃ suf,
        Agent.process_tool_calls reg kern msgs (pre ++ tc :: post) =
          .error (msgs ++ suf, fm) ∧
        suf.length = pre.length ∧
        ∀ m ∈ suf, m.role = Role.tool := by
  intro pre
  induction pre with
  | nil =>
    intro msgs tc post fm _ htc
    exact ⟨[], by simp [Agent.process_tool_calls, htc], rfl, by simp⟩
  | cons tc0 rest ih =>
    intro msgs tc post fm hrec htc
    have h0 : dispatchRecoverable reg kern tc0 = true := hrec tc0 (by simp)
    unfold dispatchRecoverable at h0
    cases h : Agent.execute_tool_call reg kern tc0 with
    | error m => rw [h] at h0; exact absurd h0 (by simp)
    | ok r =>
      obtain ⟨suf, hp, hl, hr⟩ :=
        ih (msgs ++ [toolMsg r]) tc post fm
          (fun tc' h' => hrec tc' (by simp [h'])) htc
      refine ⟨toolMsg r :: suf, ?_, by simp [hl], ?_⟩
      · simpa [Agent.process_tool_calls, h, List.append_assoc] using hp
      · intro m hm
        rcases List.mem_cons.mp hm with hm | hm
        · subst hm; rfl
        · exact hr m hm

/-- The query loop only ever appends assistant- and tool-role
messages, on both its normal and its fault-propagating exit. -/
theorem queryLoop_shape (reg : ToolRegistry) (kern : PyVal) :
    ∀ (script : List AsstResponse) (msgs : List Message),
      ∃ suf, queryMsgs (Agent.queryLoop reg kern msgs script) = msgs ++ suf ∧
        noSys suf = true := by
  intro script
  induction script with
  | nil => intro msgs; exact ⟨[], by simp [Agent.queryLoop, queryMsgs], rfl⟩
  | cons r rest ih =>
    intro msgs
    by_cases he : r.tool_calls.isEmpty
    · refine ⟨[asstMsg r], ?_, by simp [noSys, asstMsg]⟩
      simp [Agent.queryLoop, he, queryMsgs]
    · rcases process_tool_calls_shape reg kern r.tool_calls (msgs ++ [asstMsg r])
        with ⟨suf, hp, hr⟩ | ⟨suf, fm, hp, hr⟩
      · obtain ⟨suf2, hq, hns⟩ := ih (msgs ++ [asstMsg r] ++ suf)
        refine ⟨[asstMsg r] ++ suf ++ suf2, ?_, ?_⟩
        · rw [← List.append_assoc, ← List.append_assoc, ← hq]
          simp [Agent.queryLoop, he, hp, List.append_assoc]
        · simp only [noSys_append, Bool.and_eq_true]
          exact ⟨⟨by simp [noSys, asstMsg], noSys_of_tools hr⟩, hns⟩
      · refine ⟨[asstMsg r] ++ suf, ?_, ?_⟩
        · simp [Agent.queryLoop, he, hp, queryMsgs, List.append_assoc]
        · simp only [noSys_append, Bool.and_eq_true]
          exact ⟨by simp [noSys, asstMsg], noSys_of_tools hr⟩

/-- `_set_system_prompt` establishes the invariant on any history whose
tail holds no system message. -/
theorem set_system_prompt_clean (sp : String) (msgs : List Message)
    (h : noSys (msgs.drop 1) = true) :
    headSystemOnly (Agent.set_system_prompt sp msgs) = true := by
  cases msgs with
  | nil =>
    simp [Agent.set_system_prompt, headSystemOnly, headIsSystem, systemMsg, noSys]
  | cons m rest =>
    simp only [List.drop_succ_cons, List.drop_zero] at h
    by_cases hm : m.role == Role.system
    · simp [Agent.set_system_prompt, hm, headSystemOnly, headIsSystem, h]
    · simp only [Agent.set_system_prompt, hm, Bool.false_eq_true, if_false]
      simp only [headSystemOnly, headIsSystem, systemMsg, List.drop_succ_cons,
        List.drop_zero, Bool.and_eq_true, beq_self_eq_true, true_and]
      simp only [noSys, List.all_cons, Bool.and_eq_true]
      exact ⟨by simpa using hm, h⟩

/-- Appending system-free messages preserves the invariant. -/
theorem headSystemOnly_append {msgs suf : List Message}
    (h1 : headSystemOnly msgs = true) (h2 : noSys suf = true) :
    headSystemOnly (msgs ++ suf) = true := by
  cases msgs with
  | nil => simp [headSystemOnly, headIsSystem] at h1
  | cons m rest =>
    simp only [headSystemOnly, headIsSystem, List.drop_succ_cons, List.drop_zero,
      Bool.and_eq_true] at h1
    simp only [List.cons_append, headSystemOnly, headIsSystem,
      List.drop_succ_cons, List.drop_zero, Bool.and_eq_true, noSys_append]
    exact ⟨h1.1, h1.2, h2⟩

/-- The invariant pins the number of system messages to exactly one. -/
theorem systemCount_of_headSystemOnly {msgs : List Message}
    (h : headSystemOnly msgs = true) : systemCount msgs = 1 := by
  cases msgs with
  | nil => simp [headSystemOnly, headIsSystem] at h
  | cons m rest =>
    simp only [headSystemOnly, headIsSystem, List.drop_succ_cons, List.drop_zero,
      Bool.and_eq_true] at h
    have hz : rest.countP (fun m => m.role == Role.system) = 0 := by
      rw [List.countP_eq_zero]
      intro a ha
      have := h.2
      simp only [noSys, List.all_eq_true] at this
      simpa using this a ha
    simp [systemCount, List.countP_cons, h.1, hz]

/-- One `query` call establishes the invariant from any history whose
tail holds no system message. -/
theorem query_establishes (reg : ToolRegistry) (kern : PyVal) (sp : String)
    (msgs : List Message) (prompt : String) (script : List AsstResponse)
    (h : noSys (msgs.drop 1) = true) :
    headSystemOnly
      (queryMsgs (Agent.query reg kern sp msgs prompt script)) = true := by
  unfold Agent.query
  obtain ⟨suf, hq, hns⟩ :=
    queryLoop_shape reg kern script
      (Agent.set_system_prompt sp msgs ++ [userMsg prompt])
  rw [hq, List.append_assoc]
  refine headSystemOnly_append (set_system_prompt_clean sp msgs h) ?_
  simp only [noSys_append, Bool.and_eq_true]
  exact ⟨by simp [noSys, userMsg], hns⟩

/-- Every further `query` call preserves the invariant. -/
theorem queries_headSystemOnly (reg : ToolRegistry) (kern : PyVal)
    (sp : String) :
    ∀ (qs : List (String × List AsstResponse)) (msgs : List Message),
      headSystemOnly msgs = true →
      headSystemOnly (Agent.queries reg kern sp msgs qs) = true := by
  intro qs
  induction qs with
  | nil => intro msgs h; simpa [Agent.queries] using h
  | cons q rest ih =>
    intro msgs h
    obtain ⟨p, s⟩ := q
    have hdrop : noSys (msgs.drop 1) = true := by
      simp only [headSystemOnly, Bool.and_eq_true] at h
      exact h.2
    have hest := query_establishes reg kern sp msgs p s hdrop
    cases hq : Agent.query reg kern sp msgs p s with
    | ok pr =>
      obtain ⟨m', r⟩ := pr
      rw [hq] at hest
      simp only [Agent.queries, hq]
      exact ih m' hest
    | error pr =>
      obtain ⟨m', e⟩ := pr
      rw [hq] at hest
      simp only [Agent.queries, hq]
      exact ih m' hest

/-! ## Theorems: the agent loop -/

/-- C3 (amended): for every session whose initial history holds system
messages at most at its head — in particular the empty history — after
`query` is called any positive number of times the history starts with a
system message and contains exactly one: the system message is inserted
at most once and never duplicated by subsequent queries. -/
theorem query_single_system_invariant (reg : ToolRegistry) (kern : PyVal)
    (sp : String) (msgs : List Message)
    (qs : List (String × List AsstResponse))
    (h1 : noSys (msgs.drop 1) = true) (h2 : qs ≠ []) :
    headIsSystem (Agent.queries reg kern sp msgs qs) = true ∧
    systemCount (Agent.queries reg kern sp msgs qs) = 1 := by
  obtain ⟨q, rest, rfl⟩ : ∃ q rest, qs = q :: rest := by
    cases qs with
    | nil => exact absurd rfl h2
    | cons q rest => exact ⟨q, rest, rfl⟩
  obtain ⟨p, s⟩ := q
  have hest := query_establishes reg kern sp msgs p s h1
  have hstep : Agent.queries reg kern sp msgs ((p, s) :: rest) =
      Agent.queries reg kern sp
        (queryMsgs (Agent.query reg kern sp msgs p s)) rest := by
    cases hq : Agent.query reg kern sp msgs p s with
    | ok pr => obtain ⟨m', r⟩ := pr; simp [Agent.queries, hq, queryMsgs]
    | error pr => obtain ⟨m', e⟩ := pr; simp [Agent.queries, hq, queryMsgs]
  rw [hstep]
  have hfin := queries_headSystemOnly reg kern sp rest _ hest
  constructor
  · simp only [headSystemOnly, Bool.and_eq_true] at hfin
    exact hfin.1
  · exact systemCount_of_headSystemOnly hfin

/-- C3 witness: one query against an initially empty history yields a
history headed by the single system message. -/
theorem query_single_system_invariant_witness :
    headIsSystem (Agent.queries regW PyVal.kernelRef "You are helpful" []
      [("hi", [⟨some "done", []⟩])]) = true ∧
    systemCount (Agent.queries regW PyVal.kernelRef "You are helpful" []
      [("hi", [⟨some "done", []⟩])]) = 1 :=
  query_single_system_invariant regW PyVal.kernelRef "You are helpful" []
    [("hi", [⟨some "done", []⟩])] (by decide) (by decide)

/-- C3 counterexample: a session whose initial history already holds
two system messages keeps both — `_set_system_prompt` sees a system
message at the head and does nothing — so after a query the history does
not contain exactly one system message. -/
theorem single_system_counterexample :
    systemCount (Agent.queries regW PyVal.kernelRef "sp"
      [systemMsg "a", systemMsg "b"] [("q", [⟨some "done", []⟩])]) ≠ 1 := by
  decide

/-- C4: when every request of an assistant turn dispatches on a
recoverable path, `_process_tool_calls` appends exactly one tool-role
message per request, whose `tool_call_id` values are exactly the
requests' ids in the order the requests were issued. -/
theorem dispatch_one_message_per_request (reg : ToolRegistry) (kern : PyVal) :
    ∀ (tcs : List ToolCall) (msgs : List Message),
      (∀ tc ∈ tcs, dispatchRecoverable reg kern tc = true) →
      ∃ suf,
        Agent.process_tool_calls reg kern msgs tcs = .ok (msgs ++ suf) ∧
        suf.map Message.tool_call_id = tcs.map (fun tc => some tc.id) ∧
        suf.length = tcs.length ∧
        ∀ m ∈ suf, m.role = Role.tool := by
  intro tcs
  induction tcs with
  | nil =>
    intro msgs _
    exact ⟨[], by simp [Agent.process_tool_calls], by simp, rfl, by simp⟩
  | cons tc rest ih =>
    intro msgs hrec
    have h0 : dispatchRecoverable reg kern tc = true := hrec tc (by simp)
    unfold dispatchRecoverable at h0
    cases h : Agent.execute_tool_call reg kern tc with
    | error m => rw [h] at h0; exact absurd h0 (by simp)
    | ok r =>
      obtain ⟨suf, hp, hids, hlen, hroles⟩ :=
        ih (msgs ++ [toolMsg r]) (fun tc' h' => hrec tc' (by simp [h']))
      have hid : r.tool_call_id = tc.id :=
        (execute_tool_call_ok_fields reg kern tc r h).1
      refine ⟨toolMsg r :: suf, ?_, ?_, by simp [hlen], ?_⟩
      · simpa [Agent.process_tool_calls, h, List.append_assoc] using hp
      · simp [toolMsg, hid, hids]
      · intro m hm
        rcases List.mem_cons.mp hm with hm | hm
        · subst hm; rfl
        · exact hroles m hm

/-- C4 witness: four requests — a success, an unknown tool, a malformed
payload, and a caught fault — produce exactly four tool messages whose
ids match the requests in order. -/
theorem dispatch_one_message_per_request_witness :
    ∃ suf,
      Agent.process_tool_calls regW PyVal.kernelRef []
        [tcEcho, tcNope, tcMalformed, tcFrail] = .ok ([] ++ suf) ∧
      suf.map Message.tool_call_id =
        [tcEcho, tcNope, tcMalformed, tcFrail].map (fun tc => some tc.id) ∧
      suf.length = [tcEcho, tcNope, tcMalformed, tcFrail].length ∧
      ∀ m ∈ suf, m.role = Role.tool :=
  dispatch_one_message_per_request regW PyVal.kernelRef
    [tcEcho, tcNope, tcMalformed, tcFrail] [] (by decide)

/-- C5 (amended): a request whose payload fails to parse yields a tool
message whose content is `"Error parsing tool arguments: <detail>"` — a
string starting with `"Error parsing tool arguments:"` — and only that
request is aborted: processing continues with the sibling requests.  A
request whose name is not registered and whose payload parses yields the
content `"Error: Tool '<name>' not found"` (when both defects are
present, the parse failure takes precedence). -/
theorem tool_error_messages (reg : ToolRegistry) (kern : PyVal)
    (tc : ToolCall) :
    (∀ e, tc.arguments = .malformed e →
       Agent.execute_tool_call reg kern tc =
         .ok ⟨tc.id, tc.name, "Error parsing tool arguments: " ++ e⟩ ∧
       (∃ s, "Error parsing tool arguments: " ++ e =
          "Error parsing tool arguments:" ++ s) ∧
       ∀ (msgs : List Message) (rest : List ToolCall),
         Agent.process_tool_calls reg kern msgs (tc :: rest) =
           Agent.process_tool_calls reg kern
             (msgs ++
               [toolMsg ⟨tc.id, tc.name, "Error parsing tool arguments: " ++ e⟩])
             rest) ∧
    (∀ args, tc.arguments = .wellFormed args →
       List.lookup tc.name reg = none →
       Agent.execute_tool_call reg kern tc =
         .ok ⟨tc.id, tc.name, "Error: Tool '" ++ tc.name ++ "' not found"⟩) := by
  constructor
  · intro e he
    have hx : Agent.execute_tool_call reg kern tc =
        .ok ⟨tc.id, tc.name, "Error parsing tool arguments: " ++ e⟩ := by
      unfold Agent.execute_tool_call
      rw [he]
    refine ⟨hx, ⟨" " ++ e, ?_⟩, ?_⟩
    · rw [← String.append_assoc]
      congr 1
    · intro msgs rest
      simp [Agent.process_tool_calls, hx]
  · intro args ha hl
    unfold Agent.execute_tool_call
    rw [ha, hl]

/-- C5 witness: a malformed payload produces the parse-error content
and the sibling equation; an unknown registered name with a parsed
payload produces the not-found content. -/
theorem tool_error_messages_witness :
    Agent.execute_tool_call regW PyVal.kernelRef tcMalformed =
      .ok ⟨tcMalformed.id, tcMalformed.name,
        "Error parsing tool arguments: " ++
          "Expecting value: line 1 column 1 (char 0)"⟩ ∧
    Agent.execute_tool_call regW PyVal.kernelRef tcNope =
      .ok ⟨tcNope.id, tcNope.name,
        "Error: Tool '" ++ tcNope.name ++ "' not found"⟩ :=
  ⟨((tool_error_messages regW PyVal.kernelRef tcMalformed).1
      "Expecting value: line 1 column 1 (char 0)" rfl).1,
   (tool_error_messages regW PyVal.kernelRef tcNope).2 [] rfl rfl⟩

/-- C5 counterexample: for a request whose name `nope` is not in the
registry but whose payload is also malformed, the resulting tool message
content is the parse-error string, not `"Error: Tool 'nope' not
found"` — refuting the claim's unconditional unknown-name clause. -/
theorem tool_not_found_counterexample :
    List.lookup "nope" regW = none ∧
    Agent.execute_tool_call regW PyVal.kernelRef
        ⟨"c9", "nope", .malformed "Expecting value"⟩ =
      .ok ⟨"c9", "nope", "Error parsing tool arguments: Expecting value"⟩ ∧
    "Error parsing tool arguments: Expecting value" ≠
      "Error: Tool 'nope' not found" :=
  ⟨rfl, rfl, by decide⟩

/-- C6: a registered callable's fault inside the dispatcher's narrow
`except` clause (type / value / attribute / runtime error) is converted
to the result string `"Error executing tool '<name>': <detail>"`, while
a fault outside the clause propagates out of the dispatcher and
terminates the whole query, which aborts with the conversation history
accumulated up to that point (tool messages of the already-dispatched
sibling requests included) left intact. -/
theorem tool_fault_narrow_catch (reg : ToolRegistry) (kern : PyVal)
    (tc : ToolCall) (args : ToolArgs) (f : ToolFn)
    (hargs : tc.arguments = .wellFormed args)
    (hf : List.lookup tc.name reg = some f) :
    (∀ kind m, caughtKind kind = true →
       f (resolvedArgs kern tc.name args) = .fault kind m →
       Agent.execute_tool_call reg kern tc =
         .ok ⟨tc.id, tc.name,
           "Error executing tool '" ++ tc.name ++ "': " ++ m⟩) ∧
    (∀ m, f (resolvedArgs kern tc.name args) = .fault .other m →
       Agent.execute_tool_call reg kern tc = .error m ∧
       ∀ (sp : String) (msgs : List Message) (prompt : String)
         (r : AsstResponse) (pre post : List ToolCall)
         (script : List AsstResponse),
         r.tool_calls = pre ++ tc :: post →
         (∀ tc' ∈ pre, dispatchRecoverable reg kern tc' = true) →
         ∃ suf,
           Agent.query reg kern sp msgs prompt (r :: script) =
             .error (Agent.set_system_prompt sp msgs ++
               userMsg prompt :: asstMsg r :: suf, m) ∧
           suf.length = pre.length ∧
           ∀ mm ∈ suf, mm.role = Role.tool) := by
  constructor
  · intro kind m hc hfault
    simp [Agent.execute_tool_call, hargs, hf, hfault, hc]
  · intro m hfault
    have hx : Agent.execute_tool_call reg kern tc = .error m := by
      simp [Agent.execute_tool_call, hargs, hf, hfault, caughtKind]
    refine ⟨hx, ?_⟩
    intro sp msgs prompt r pre post script hr hrec
    obtain ⟨suf, hp, hlen, hroles⟩ :=
      process_tool_calls_abort reg kern pre
        (Agent.set_system_prompt sp msgs ++ [userMsg prompt] ++ [asstMsg r])
        tc post m hrec hx
    refine ⟨suf, ?_, hlen, hroles⟩
    have hne : r.tool_calls.isEmpty = false := by
      rw [hr]; cases pre <;> simp
    simp only [Agent.query, Agent.queryLoop, hne, Bool.false_eq_true, if_false, hr]
    simp only [List.append_assoc, List.singleton_append] at hp
    simp [hp, List.append_assoc]

/-- C6 witness: a `TypeError` from the callable of `frail` is converted
to an error string; a `KeyError`-like fault from the callable of `boom`
propagates out of the dispatcher. -/
theorem tool_fault_narrow_catch_witness :
    Agent.execute_tool_call regW PyVal.kernelRef tcFrail =
      .ok ⟨tcFrail.id, tcFrail.name,
        "Error executing tool '" ++ tcFrail.name ++ "': " ++ "bad operand"⟩ ∧
    Agent.execute_tool_call regW PyVal.kernelRef tcBoom =
      .error "missing key" :=
  ⟨(tool_fault_narrow_catch regW PyVal.kernelRef tcFrail [] fFrail rfl rfl).1
      .typeError "bad operand" rfl rfl,
   ((tool_fault_narrow_catch regW PyVal.kernelRef tcBoom [] fBoom rfl rfl).2
      "missing key" rfl).1⟩
